import Mathlib

/-!
Verification development for the notes-export core: a shallow embedding of
the export pipeline (`backup.rs`), the folder-path resolver (`db.rs`) and the
markdown renderer (`render.rs`), together with theorems settling the frozen
claims about them.

Modelling conventions:
- byte buffers are `List Nat` (each entry one byte);
- external collaborators (the gzip decompressor, the HTML-to-markdown
  converter, the JSON serializer, the live-application backend, and the
  Unicode table behind the character classifier `char::is_alphanumeric`)
  are passed in as function parameters;
- fallible Rust functions returning `anyhow::Result` become `Except String`;
  a Rust panic is modelled as `Option.none` (for `note_dir_name`) or a
  distinguished error;
- `while` loops are embedded as structural recursion, with an explicit fuel
  parameter where the Rust loop is not structurally recursive; a theorem then
  shows the chosen fuel is always sufficient.
-/

/-- Unicode `Cc` test, the model of the collaborator `char::is_control`:
code points 0x00-0x1F and 0x7F-0x9F. -/
def rustIsControl (c : Char) : Bool :=
  c.toNat ≤ 0x1f || (0x7f ≤ c.toNat && c.toNat ≤ 0x9f)

/-- Unicode `White_Space` test, the model of the collaborator
`char::is_whitespace`. -/
def rustIsWhitespace (c : Char) : Bool :=
  c.toNat = 0x9 || c.toNat = 0xA || c.toNat = 0xB || c.toNat = 0xC ||
  c.toNat = 0xD || c.toNat = 0x20 || c.toNat = 0x85 || c.toNat = 0xA0 ||
  c.toNat = 0x1680 || (0x2000 ≤ c.toNat && c.toNat ≤ 0x200A) ||
  c.toNat = 0x2028 || c.toNat = 0x2029 || c.toNat = 0x202F ||
  c.toNat = 0x205F || c.toNat = 0x3000

/-- A concrete sample classifier used only to instantiate witnesses.  It
agrees with the collaborator `char::is_alphanumeric` on the ASCII range,
and every witness input below is ASCII.  The full Unicode table behind
`char::is_alphanumeric` is collaborator data, not repository code, so the
scoring functions abstract the classifier as their `isAlnum` parameter. -/
def asciiIsAlphanumeric (c : Char) : Bool :=
  ('0' ≤ c && c ≤ '9') || ('a' ≤ c && c ≤ 'z') || ('A' ≤ c && c ≤ 'Z')

/-- Number of bytes of the UTF-8 encoding of one scalar value. -/
def utf8Width (c : Char) : Nat :=
  if c.toNat < 0x80 then 1
  else if c.toNat < 0x800 then 2
  else if c.toNat < 0x10000 then 3
  else 4

/-- Byte length of the UTF-8 encoding of a character sequence (the model of
Rust `str::len`). -/
def utf8Len (l : List Char) : Nat := (l.map utf8Width).sum

/-- UTF-8 encoding of one scalar value. -/
def utf8EncodeChar (c : Char) : List Nat :=
  let n := c.toNat
  if n < 0x80 then [n]
  else if n < 0x800 then [0xC0 + n / 64, 0x80 + n % 64]
  else if n < 0x10000 then [0xE0 + n / 4096, 0x80 + n / 64 % 64, 0x80 + n % 64]
  else [0xF0 + n / 262144, 0x80 + n / 4096 % 64, 0x80 + n / 64 % 64, 0x80 + n % 64]

/-- UTF-8 bytes of a string. -/
def strBytes (s : String) : List Nat := s.data.flatMap utf8EncodeChar

/-- UTF-8 continuation byte test. -/
def contB (x : Nat) : Bool := 0x80 ≤ x && x ≤ 0xBF

/-- One step of UTF-8 decoding: `b` is the byte already popped, `rest` the
remaining bytes.  On success returns the decoded scalar and the remaining
input; on failure returns the remaining input after skipping the invalid
sequence, following the skip lengths of Rust `Utf8Error::error_len` (used by
`String::from_utf8_lossy`): an invalid leading byte skips one byte, an
invalid continuation byte skips the valid prefix read so far. -/
def utf8Step (b : Nat) (rest : List Nat) : Except (List Nat) (Char × List Nat) :=
  if b ≤ 0x7F then .ok (Char.ofNat b, rest)
  else if b < 0xC2 then .error rest
  else if b ≤ 0xDF then
    match rest with
    | [] => .error []
    | c1 :: r1 =>
      if contB c1 then .ok (Char.ofNat ((b - 0xC0) * 64 + (c1 - 0x80)), r1)
      else .error rest
  else if b ≤ 0xEF then
    match rest with
    | [] => .error []
    | c1 :: r1 =>
      let ok1 := (b = 0xE0 && 0xA0 ≤ c1 && c1 ≤ 0xBF) ||
                 (0xE1 ≤ b && b ≤ 0xEC && contB c1) ||
                 (b = 0xED && 0x80 ≤ c1 && c1 ≤ 0x9F) ||
                 (0xEE ≤ b && contB c1)
      if !ok1 then .error rest
      else
        match r1 with
        | [] => .error []
        | c2 :: r2 =>
          if contB c2 then
            .ok (Char.ofNat ((b - 0xE0) * 4096 + (c1 - 0x80) * 64 + (c2 - 0x80)), r2)
          else .error r1
  else if b ≤ 0xF4 then
    match rest with
    | [] => .error []
    | c1 :: r1 =>
      let ok1 := (b = 0xF0 && 0x90 ≤ c1 && c1 ≤ 0xBF) ||
                 (0xF1 ≤ b && b ≤ 0xF3 && contB c1) ||
                 (b = 0xF4 && 0x80 ≤ c1 && c1 ≤ 0x8F)
      if !ok1 then .error rest
      else
        match r1 with
        | [] => .error []
        | c2 :: r2 =>
          if !contB c2 then .error r1
          else
            match r2 with
            | [] => .error []
            | c3 :: r3 =>
              if contB c3 then
                .ok (Char.ofNat ((b - 0xF0) * 262144 + (c1 - 0x80) * 4096 +
                      (c2 - 0x80) * 64 + (c3 - 0x80)), r3)
              else .error r2
  else .error rest

/-- Strict UTF-8 decoding (model of `std::str::from_utf8`), with fuel; each
iteration consumes at least one byte, so fuel equal to the byte count always
suffices. -/
def utf8DecodeAux : Nat → List Nat → Option (List Char)
  | _, [] => some []
  | fuel + 1, b :: rest =>
    match utf8Step b rest with
    | .ok (c, r) => (utf8DecodeAux fuel r).map (c :: ·)
    | .error _ => none
  | 0, _ :: _ => none

/-- Strict UTF-8 decoding of a byte buffer. -/
def utf8Decode (bytes : List Nat) : Option (List Char) :=
  utf8DecodeAux bytes.length bytes

/-- Lossy UTF-8 decoding (model of `String::from_utf8_lossy`), with fuel. -/
def utf8LossyAux : Nat → List Nat → List Char
  | _, [] => []
  | fuel + 1, b :: rest =>
    match utf8Step b rest with
    | .ok (c, r) => c :: utf8LossyAux fuel r
    | .error r => '�' :: utf8LossyAux fuel r
  | 0, _ :: _ => []

/-- Lossy UTF-8 decoding of a byte buffer. -/
def utf8DecodeLossy (bytes : List Nat) : List Char :=
  utf8LossyAux bytes.length bytes

/-- Strip a leading and trailing run of characters satisfying `p` (the model
of Rust `str::trim_matches`). -/
def trimWhere (p : Char → Bool) (l : List Char) : List Char :=
  ((l.dropWhile p).reverse.dropWhile p).reverse

/-- Model of `str::trim_matches('\0')`. -/
def trimNuls (l : List Char) : List Char := trimWhere (fun c => c = '\u0000') l

/-- Model of Rust `str::trim` (Unicode whitespace from both ends). -/
def rustTrim (l : List Char) : List Char := trimWhere rustIsWhitespace l

/-- First pass of `normalize_text`: `s.replace("\r\n", "\n")`, the
left-to-right non-overlapping replacement Rust performs. -/
def replaceCRLF : List Char → List Char
  | '\r' :: '\n' :: rest => '\n' :: replaceCRLF rest
  | c :: rest => c :: replaceCRLF rest
  | [] => []

/-- The function `normalize_text` of `backup.rs`: replace `\r\n` with `\n`,
then every remaining `\r` with `\n`. -/
def normalizeChars (l : List Char) : List Char :=
  (replaceCRLF l).map (fun c => if c = '\r' then '\n' else c)

/-- String-level wrapper of `normalize_text`. -/
def normalizeText (s : String) : String := String.mk (normalizeChars s.data)

/-- The function `looks_like_human_text` of `backup.rs`: sample up to 2048
scalars; a scalar is weird when it is a control character other than
newline, carriage return or tab; human text needs a printable scalar and
`weird * 20 < printable`. -/
def looksLikeHumanText (l : List Char) : Bool :=
  let sample := l.take 2048
  let weird := (sample.filter
    (fun c => rustIsControl c && c ≠ '\n' && c ≠ '\r' && c ≠ '\t')).length
  let printable := (sample.filter
    (fun c => !(rustIsControl c && c ≠ '\n' && c ≠ '\r' && c ≠ '\t'))).length
  decide (0 < printable) && decide (weird * 20 < printable)

/-- Block-delimiter test of `best_effort_extract_text`: a control character
other than newline, carriage return or tab, or the replacement character. -/
def isBlockDelim (c : Char) : Bool :=
  (rustIsControl c && c ≠ '\n' && c ≠ '\r' && c ≠ '\t') || c = '�'

/-- The block-splitting loop of `best_effort_extract_text`: split at every
delimiter, pushing each trimmed non-whitespace-only run. -/
def extractGo : List Char → List Char → List String → List String
  | [], current, blocks =>
    if (rustTrim current).isEmpty then blocks
    else blocks ++ [String.mk (rustTrim current)]
  | c :: rest, current, blocks =>
    if isBlockDelim c then
      extractGo rest []
        (if (rustTrim current).isEmpty then blocks
         else blocks ++ [String.mk (rustTrim current)])
    else extractGo rest (current ++ [c]) blocks

/-- The candidate runs `best_effort_extract_text` extracts from a byte
buffer, in input order. -/
def extractBlocks (bytes : List Nat) : List String :=
  extractGo (utf8DecodeLossy bytes) [] []

/-- The function `score_block` of `backup.rs`:
`alnum.saturating_sub(len / 4) + ws.min(200)` over scalar counts.  The
Unicode table behind the collaborator `char::is_alphanumeric` is external
data, so the classifier is passed in as `isAlnum`; `char::is_whitespace`
is the complete `White_Space` list `rustIsWhitespace`. -/
def scoreBlock (isAlnum : Char → Bool) (s : String) : Nat :=
  let alnum := (s.data.filter isAlnum).length
  let ws := (s.data.filter rustIsWhitespace).length
  let len := s.data.length
  (alnum - len / 4) + min ws 200

/-- Comparator of the stable descending sort in `best_effort_extract_text`
(`sort_by_key` with `Reverse(score_block)`), expressed as the order relation
fed to an insertion sort: `a` goes before `b` when its score is at least the
score of `b`, so equal-score runs keep their input order. -/
def scoreGe (isAlnum : Char → Bool) (a b : String) : Prop :=
  scoreBlock isAlnum b ≤ scoreBlock isAlnum a

instance (isAlnum : Char → Bool) : DecidableRel (scoreGe isAlnum) :=
  fun _ _ => Nat.decLe _ _

/-- The function `best_effort_extract_text` of `backup.rs`: split into runs,
sort stably by descending score, pick the first run scoring above 20 (or the
empty string), and normalize it. -/
def bestEffortExtractText (isAlnum : Char → Bool) (bytes : List Nat) : String :=
  let blocks := extractBlocks bytes
  let sorted := blocks.insertionSort (scoreGe isAlnum)
  let best := (sorted.find? (fun b => decide (20 < scoreBlock isAlnum b))).getD ""
  normalizeText best

/-- The function `decode_note_markdown` of `backup.rs`.  The gzip
decompressor (`flate2::read::GzDecoder`) and the character classifier of
the fallback scoring are external collaborators passed in as `gunzip` and
`isAlnum`; a decompression failure is propagated as a decode error. -/
def decodeNoteMarkdown (isAlnum : Char → Bool)
    (gunzip : List Nat → Except String (List Nat))
    (data : List Nat) : Except String String :=
  match (if data.take 2 = [0x1f, 0x8b] then gunzip data else .ok data) with
  | .error e => .error e
  | .ok decoded =>
    let fallback : Except String String :=
      let text := bestEffortExtractText isAlnum decoded
      if (rustTrim text.data).isEmpty then
        .error "could not extract text from note blob"
      else .ok text
    match utf8Decode decoded with
    | some chars =>
      let s := rustTrim (trimNuls chars)
      if looksLikeHumanText s then .ok (String.mk (normalizeChars s))
      else fallback
    | none => fallback

/-- Decidable equality for `Except`, used to evaluate concrete instances of
the fallible operations. -/
instance {ε α : Type} [DecidableEq ε] [DecidableEq α] : DecidableEq (Except ε α) :=
  fun a b =>
  match a, b with
  | .ok x, .ok y => if h : x = y then isTrue (by simp [h]) else isFalse (by simp [h])
  | .error x, .error y => if h : x = y then isTrue (by simp [h]) else isFalse (by simp [h])
  | .ok _, .error _ => isFalse (by simp)
  | .error _, .ok _ => isFalse (by simp)

/-- The record `model::Folder`.  Timestamps throughout the model are opaque
integers (`OffsetDateTime` is only produced and serialized, never inspected
by the claims). -/
structure Folder where
  id : String
  name : String
  account : String
  path : List String
deriving DecidableEq

/-- The record `model::NoteSummary`. -/
structure NoteSummary where
  id : String
  title : String
  folder_id : String
deriving DecidableEq

/-- The record `model::Note`. -/
structure Note where
  id : String
  title : String
  folder_id : String
  created_at : Int
  modified_at : Int
  body_html : String
deriving DecidableEq

/-- The record `model::BackupNoteMetadata`. -/
structure BackupNoteMetadata where
  id : String
  title : String
  account : String
  folder_path : List String
  created_at : Int
  modified_at : Int
deriving DecidableEq

/-- The struct `backup::FolderIndex`: folders keyed by id.  The `HashMap` is
modelled as an association list with unique keys. -/
structure FolderIndex where
  by_id : List (String × Folder)
deriving DecidableEq

/-- The method `FolderIndex::folder_path`: look the folder up by id and
return its stored root-first path. -/
def FolderIndex.folder_path (idx : FolderIndex) (folder_id : String) :
    Option (List String) :=
  (idx.by_id.lookup folder_id).map Folder.path

/-- Characters removed by the collaborator `sanitize_filename::sanitize`
(its `illegal_re`). -/
def sanitizeIllegal (c : Char) : Bool :=
  c = '/' || c = '?' || c = '<' || c = '>' || c = '\\' || c = ':' ||
  c = '*' || c = '|' || c = '"'

/-- Control characters removed by `sanitize_filename::sanitize`
(its `control_re`, 0x00-0x1F and 0x80-0x9F). -/
def sanitizeCtrl (c : Char) : Bool :=
  c.toNat ≤ 0x1f || (0x80 ≤ c.toNat && c.toNat ≤ 0x9f)

/-- Keep the longest prefix whose UTF-8 encoding fits in `n` bytes (the
char-boundary-safe truncation `sanitize_filename` performs at 255 bytes). -/
def takeBytes : Nat → List Char → List Char
  | _, [] => []
  | n, c :: cs => if utf8Width c ≤ n then c :: takeBytes (n - utf8Width c) cs else []

/-- Model of the collaborator `sanitize_filename::sanitize` with its default
options on macOS: drop illegal and control characters, blank a name that is
only dots, and truncate to 255 bytes on a char boundary. -/
def sanitizeChars (l : List Char) : List Char :=
  let f := l.filter (fun c => !sanitizeIllegal c && !sanitizeCtrl c)
  let f := if !f.isEmpty && f.all (fun c => c = '.') then [] else f
  if utf8Len f > 255 then takeBytes 255 f else f

/-- String-level wrapper of the sanitizer. -/
def sanitizeStr (s : String) : String := String.mk (sanitizeChars s.data)

/-- Keep the first `n` bytes of the UTF-8 encoding, the model of Rust
`String::truncate`: `none` models the panic raised when byte `n` is not a
char boundary. -/
def truncateBytes : Nat → List Char → Option (List Char)
  | _, [] => some []
  | n, c :: cs =>
    if utf8Width c ≤ n then (truncateBytes (n - utf8Width c) cs).map (c :: ·)
    else if n = 0 then some [] else none

/-- The trailing path segment of an id: the characters after the last slash
(the whole input when it has no slash), the model of
`note_id.rsplit('/').next().unwrap_or(note_id)`. -/
def lastSegChars (l : List Char) : List Char :=
  (l.reverse.takeWhile (fun c => c ≠ '/')).reverse

/-- The function `note_dir_name` of `backup.rs`: trim the title, substitute
"Untitled" when empty, truncate to 80 bytes (`none` models the
`String::truncate` panic off a char boundary), sanitize, and append a dash
and the trailing segment of the note id. -/
def note_dir_name (title note_id : String) : Option String :=
  let base := rustTrim title.data
  let base := if base.isEmpty then "Untitled".data else base
  let tr : Option (List Char) :=
    if utf8Len base > 80 then truncateBytes 80 base else some base
  tr.map (fun b =>
    String.mk (sanitizeChars b) ++ "-" ++ String.mk (lastSegChars note_id.data))

/-- The function `export_path` of `backup.rs`: the note directory is the
output root, then each sanitized folder-path segment, then the note
directory name.  Paths are segment lists; `none` propagates the
`note_dir_name` panic. -/
def export_path (root : List String) (folder_path : List String)
    (title note_id : String) : Option (List String) :=
  (note_dir_name title note_id).map
    (fun nd => root ++ folder_path.map sanitizeStr ++ [nd])

/-- The struct `backup::WorkItem`: one fully materialized export unit. -/
structure WorkItem where
  note_dir : List String
  metadata_json : String
  contents_md : String
  contents_html : Option String
deriving DecidableEq

/-- The function `render::note_to_markdown`.  The HTML-to-markdown converter
(`html2md::parse_html`) is an external collaborator passed in as
`htmlToMd`; the body is converted, trimmed and placed under a level-1
heading of the title followed by a blank line. -/
def note_to_markdown (htmlToMd : String → String) (note : Note) : String :=
  "# " ++ note.title ++ "\n\n" ++ String.mk (rustTrim (htmlToMd note.body_html).data)

/-- The files `write_item` produces for one work item, as (path, contents)
pairs: `metadata.json` and `contents.md` always, `contents.html` only when
present. -/
def write_item_files (w : WorkItem) : List (List String × String) :=
  (w.note_dir ++ ["metadata.json"], w.metadata_json) ::
  (w.note_dir ++ ["contents.md"], w.contents_md) ::
  (match w.contents_html with
   | some h => [(w.note_dir ++ ["contents.html"], h)]
   | none => [])

/-- The function `build_item` of `backup.rs` (automation-bridge flavor).
The live-application backend is the collaborator `get_note`; the JSON
serializer is `metaJson`.  An unresolved folder id is a hard error; the
`String::truncate` panic inside `export_path` is surfaced as a
distinguished error. -/
def build_item (get_note : String → Except String Note)
    (htmlToMd : String → String) (metaJson : BackupNoteMetadata → String)
    (account : String) (out_dir : List String) (folder_index : FolderIndex)
    (n : NoteSummary) (include_html : Bool) : Except String WorkItem :=
  match get_note n.id with
  | .error e => .error e
  | .ok note =>
    match folder_index.folder_path note.folder_id with
    | none =>
      .error ("note " ++ note.id ++ " references unknown folder id " ++ note.folder_id)
    | some folder_path =>
      let contents_md := note_to_markdown htmlToMd note
      let contents_html := if include_html then some note.body_html else none
      let metadata : BackupNoteMetadata :=
        ⟨note.id, note.title, account, folder_path, note.created_at, note.modified_at⟩
      match export_path out_dir folder_path note.title note.id with
      | none => .error "panicked: byte index 80 is not a char boundary"
      | some note_dir => .ok ⟨note_dir, metaJson metadata, contents_md, contents_html⟩

/-- The build phase of the `jobs = 1` branch of `export_all`: notes are
fetched and built strictly in listing order; the first error aborts. -/
def exportSeqBuild (get_note : String → Except String Note)
    (htmlToMd : String → String) (metaJson : BackupNoteMetadata → String)
    (account : String) (out_dir : List String) (folder_index : FolderIndex)
    (include_html : Bool) : List NoteSummary → Except String (List WorkItem)
  | [] => .ok []
  | n :: rest =>
    match build_item get_note htmlToMd metaJson account out_dir folder_index n include_html with
    | .error e => .error e
    | .ok item =>
      match exportSeqBuild get_note htmlToMd metaJson account out_dir folder_index
          include_html rest with
      | .error e => .error e
      | .ok items => .ok (item :: items)

/-- The build phase of the `jobs > 1` branch of `export_all`: the producer
fetches and builds every note itself, serially and in the same listing
order, before handing the finished items to the worker pool; only writes are
distributed. -/
def exportParBuild (get_note : String → Except String Note)
    (htmlToMd : String → String) (metaJson : BackupNoteMetadata → String)
    (account : String) (out_dir : List String) (folder_index : FolderIndex)
    (include_html : Bool) : List NoteSummary → Except String (List WorkItem)
  | [] => .ok []
  | n :: rest =>
    match build_item get_note htmlToMd metaJson account out_dir folder_index n include_html with
    | .error e => .error e
    | .ok item =>
      match exportParBuild get_note htmlToMd metaJson account out_dir folder_index
          include_html rest with
      | .error e => .error e
      | .ok items => .ok (item :: items)

/-- All (path, contents) pairs written for a list of work items. -/
def run_files (items : List WorkItem) : List (List String × String) :=
  items.flatMap write_item_files

/-- Digit run to number: `none` unless the run is non-empty and all ASCII
digits. -/
def digitsToNat : List Char → Option Nat
  | [] => none
  | l =>
    if l.all (fun c => '0' ≤ c && c ≤ '9') then
      some (l.foldl (fun acc c => acc * 10 + (c.toNat - '0'.toNat)) 0)
    else none

/-- Model of `str::parse::<i64>`: optional sign followed by at least one
digit.  Overflow is not modelled (the claims never exercise it). -/
def parseI64 : List Char → Option Int
  | '-' :: rest => (digitsToNat rest).map (fun n => -(n : Int))
  | '+' :: rest => (digitsToNat rest).map (fun n => (n : Int))
  | l => (digitsToNat l).map (fun n => (n : Int))

/-- The function `parse_coredata_pk` of `backup.rs`: take the trailing
segment of the id, strip the `p` and parse the numeric primary key. -/
def parse_coredata_pk (coredata_id : String) : Except String Int :=
  match lastSegChars coredata_id.data with
  | 'p' :: rest =>
    match parseI64 rest with
    | some n => .ok n
    | none => .error ("invalid coredata pk in id: " ++ coredata_id)
  | _ => .error ("invalid coredata id: " ++ coredata_id)

/-- The struct `backup::DbNoteRow`. -/
structure DbNoteRow where
  id : String
  title : String
  folder_id : String
  created_at : Int
  modified_at : Int
  body_html : Option String
deriving DecidableEq

/-- The function `export_one_db` of `backup.rs` (direct-store flavor),
returning the work item it hands to `write_item`.  The read-only store
handle is the collaborator `conn`, mapping a primary key to the raw blob row
(`load_note_data` substitutes the empty buffer for a missing row); the
character classifier, the gzip decompressor and the JSON serializer are
collaborators as in `decode_note_markdown`.  A decode failure degrades to
empty markdown; an unresolved folder id degrades to the sentinel path
`["Unknown"]`. -/
def export_one_db (isAlnum : Char → Bool)
    (gunzip : List Nat → Except String (List Nat))
    (metaJson : BackupNoteMetadata → String) (account : String)
    (out_dir : List String) (folder_index : FolderIndex) (row : DbNoteRow)
    (conn : Int → Option (List Nat)) : Except String WorkItem :=
  match parse_coredata_pk row.id with
  | .error e => .error e
  | .ok pk =>
    let data := (conn pk).getD []
    let contents_md :=
      match decodeNoteMarkdown isAlnum gunzip data with
      | .ok s => s
      | .error _ => ""
    let contents_html := row.body_html
    let folder_path := (folder_index.folder_path row.folder_id).getD ["Unknown"]
    let metadata : BackupNoteMetadata :=
      ⟨row.id, row.title, account, folder_path, row.created_at, row.modified_at⟩
    match export_path out_dir folder_path row.title row.id with
    | none => .error "panicked: byte index 80 is not a char boundary"
    | some note_dir => .ok ⟨note_dir, metaJson metadata, contents_md, contents_html⟩

/-- The struct `db::DbFolderRow`, keyed separately in the `by_pk` map: a
folder name and an optional parent pointer. -/
structure DbFolderRow where
  name : String
  parent_pk : Option Int
deriving DecidableEq

/-- Cycle error message of `db::folder_path`. -/
def cycleMsg (pk : Int) : String :=
  "folder parent cycle detected at pk " ++ toString pk

/-- Unknown-pk error message of `db::folder_path`. -/
def unknownPkMsg (pk : Int) : String :=
  "unknown folder pk " ++ toString pk

/-- The walk of `db::folder_path`, one loop iteration per fuel unit: fail on
a revisited pointer, fail on an unknown starting pointer, stop (treating the
current folder as a root) when the parent pointer dangles, and otherwise
follow the parent.  `none` is the fuel-exhaustion marker; the theorem on the
claim about termination shows the default fuel never reaches it. -/
def folderPathGo (by_pk : List (Int × DbFolderRow)) :
    Nat → Int → List Int → List String → Option (Except String (List String))
  | 0, _, _, _ => none
  | fuel + 1, current, seen, parts =>
    if current ∈ seen then some (.error (cycleMsg current))
    else
      match by_pk.lookup current with
      | none => some (.error (unknownPkMsg current))
      | some row =>
        match row.parent_pk with
        | none => some (.ok (parts ++ [row.name]).reverse)
        | some p =>
          if (by_pk.lookup p).isNone then some (.ok (parts ++ [row.name]).reverse)
          else folderPathGo by_pk fuel p (current :: seen) (parts ++ [row.name])

/-- The function `folder_path` of `db.rs`: iterative walk from `pk` toward
the root with a visited set, accumulating names and reversing them
root-first.  One fuel unit per table entry plus one is always enough. -/
def folder_path (by_pk : List (Int × DbFolderRow)) (pk : Int) :
    Except String (List String) :=
  (folderPathGo by_pk (by_pk.length + 1) pk [] []).getD
    (.error "unreachable: fuel exhausted")

/-- One worker of the `jobs > 1` branch of `export_all` (pure embedding of
its loop): `received` are the items this worker takes off the work channel,
in order; `stop` is the value of the shared cancellation flag it observes
before processing the next item; `writeRes` is the outcome of `write_item`.
Returns the completion reports it sends, the flag value it leaves behind,
and the received items it abandoned without reporting. -/
def workerLoop (writeRes : WorkItem → Except String Unit) :
    List WorkItem → Bool → List (Except String Unit) × Bool × List WorkItem
  | [], stop => ([], stop, [])
  | item :: rest, stop =>
    if stop then ([], stop, item :: rest)
    else
      let res := writeRes item
      let stop2 := !res.isOk
      let out := workerLoop writeRes rest stop2
      (res :: out.1, out.2.1, out.2.2)

/-- The completion-drain loop of the `jobs > 1` branch of `export_all` (pure
embedding): `arrivals` is the sequence of completion reports in the order
the producer receives them, `sent` the number of tasks it sent.  It stops at
`sent` received completions, propagates the first error report it receives
immediately, and fails with "worker hung up" when the channel closes
early. -/
def producerDrain (sent : Nat) : Nat → List (Except String Unit) → Except String Nat
  | completed, [] =>
    if sent ≤ completed then .ok completed else .error "worker hung up"
  | completed, r :: rest =>
    if sent ≤ completed then .ok completed
    else
      match r with
      | .error e => .error e
      | .ok _ => producerDrain sent (completed + 1) rest

theorem lookup_mem_keys {α β : Type} [BEq α] [LawfulBEq α]
    {l : List (α × β)} {k : α} {v : β} (h : l.lookup k = some v) :
    k ∈ l.map Prod.fst := by
  induction l with
  | nil => simp [List.lookup] at h
  | cons hd tl ih =>
    rw [List.lookup] at h
    by_cases hk : k == hd.fst
    · simp [List.mem_map]
      exact Or.inl (eq_of_beq hk)
    · rw [show (k == hd.1) = false from by simpa using hk] at h
      simp [ih h]

theorem folderPathGo_fuel_sufficient (by_pk : List (Int × DbFolderRow)) :
    ∀ fuel current seen parts,
      ((by_pk.map Prod.fst).toFinset \ seen.toFinset).card < fuel →
      (folderPathGo by_pk fuel current seen parts).isSome := by
  intro fuel
  induction fuel with
  | zero => intro current seen parts h; omega
  | succ n ih =>
    intro current seen parts h
    rw [folderPathGo]
    by_cases hseen : current ∈ seen
    · simp [hseen]
    · simp only [hseen, if_false]
      match hlk : by_pk.lookup current with
      | none => simp
      | some row =>
        match hpar : row.parent_pk with
        | none => simp [hpar]
        | some p =>
          by_cases hp : (by_pk.lookup p).isNone
          · simp [hpar, hp]
          · simp only [hpar, hp, if_false]
            apply ih
            have hkey : current ∈ by_pk.map Prod.fst := lookup_mem_keys hlk
            have hmem : current ∈ (by_pk.map Prod.fst).toFinset \ seen.toFinset := by
              simp [Finset.mem_sdiff, List.mem_toFinset, hkey, hseen]
            have hcons : (current :: seen).toFinset = insert current seen.toFinset :=
              List.toFinset_cons
            rw [hcons, Finset.sdiff_insert]
            have := Finset.card_erase_of_mem hmem
            have hpos : 0 < ((by_pk.map Prod.fst).toFinset \ seen.toFinset).card :=
              Finset.card_pos.mpr ⟨current, hmem⟩
            omega

/-- C4: for every folder table (cyclic ones included) the parent-pointer
walk of `db::folder_path` terminates: the default fuel (table size plus one)
never runs out; whenever the walk revisits a pointer before reaching a null
parent it fails with the cycle error naming the offending pointer; and on a
concrete two-node parent cycle the resolver reports the cycle at the
starting pointer. -/
theorem C4_folder_walk_terminates_and_detects_cycles :
    (∀ (by_pk : List (Int × DbFolderRow)) (pk : Int),
      ∃ r, folderPathGo by_pk (by_pk.length + 1) pk [] [] = some r)
    ∧ (∀ (by_pk : List (Int × DbFolderRow)) (fuel : Nat) (current : Int)
        (seen : List Int) (parts : List String), current ∈ seen →
        folderPathGo by_pk (fuel + 1) current seen parts =
          some (.error (cycleMsg current)))
    ∧ folder_path [(1, ⟨"A", some 2⟩), (2, ⟨"B", some 1⟩)] 1 =
        .error "folder parent cycle detected at pk 1" := by
  refine ⟨?_, ?_, by decide⟩
  · intro by_pk pk
    have h : ((by_pk.map Prod.fst).toFinset \ ([] : List Int).toFinset).card <
        by_pk.length + 1 := by
      have h1 : ((by_pk.map Prod.fst).toFinset \ ([] : List Int).toFinset).card ≤
          (by_pk.map Prod.fst).toFinset.card :=
        Finset.card_le_card (Finset.sdiff_subset)
      have h2 : (by_pk.map Prod.fst).toFinset.card ≤ (by_pk.map Prod.fst).length :=
        List.toFinset_card_le _
      have h3 : (by_pk.map Prod.fst).length = by_pk.length := List.length_map _ _
      omega
    have := folderPathGo_fuel_sufficient by_pk (by_pk.length + 1) pk [] [] h
    exact Option.isSome_iff_exists.mp this
  · intro by_pk fuel current seen parts h
    rw [folderPathGo]
    simp [h]

/-- C4 witness: the revisit case of the theorem evaluated at a concrete
table and pointer, together with the totality conjunct at that table. -/
theorem C4_folder_walk_terminates_and_detects_cycles_witness :
    folderPathGo [] (0 + 1) 5 [5] [] =
      some (.error "folder parent cycle detected at pk 5") :=
  C4_folder_walk_terminates_and_detects_cycles.2.1 [] 0 5 [5] [] (by decide)

/-- C5: whenever the walk of `db::folder_path` stands at a folder whose
parent pointer refers to an id absent from the table, it succeeds with the
accumulated names (the current folder included) reversed root-first — the
path truncated at the dangling pointer — instead of erroring; in particular
a folder whose own parent dangles resolves to the single-element path of its
name. -/
theorem C5_dangling_parent_truncates :
    (∀ (by_pk : List (Int × DbFolderRow)) (fuel : Nat) (current : Int)
        (seen : List Int) (parts : List String) (row : DbFolderRow) (p : Int),
      current ∉ seen → by_pk.lookup current = some row →
      row.parent_pk = some p → by_pk.lookup p = none →
      folderPathGo by_pk (fuel + 1) current seen parts =
        some (.ok (parts ++ [row.name]).reverse))
    ∧ (∀ (by_pk : List (Int × DbFolderRow)) (pk : Int) (row : DbFolderRow) (p : Int),
      by_pk.lookup pk = some row → row.parent_pk = some p →
      by_pk.lookup p = none → folder_path by_pk pk = .ok [row.name]) := by
  have main : ∀ (by_pk : List (Int × DbFolderRow)) (fuel : Nat) (current : Int)
      (seen : List Int) (parts : List String) (row : DbFolderRow) (p : Int),
      current ∉ seen → by_pk.lookup current = some row →
      row.parent_pk = some p → by_pk.lookup p = none →
      folderPathGo by_pk (fuel + 1) current seen parts =
        some (.ok (parts ++ [row.name]).reverse) := by
    intro by_pk fuel current seen parts row p h1 h2 h3 h4
    rw [folderPathGo]
    simp [h1, h2, h3, h4]
  refine ⟨main, ?_⟩
  intro by_pk pk row p h2 h3 h4
  have := main by_pk by_pk.length pk [] [] row p (by simp) h2 h3 h4
  rw [folder_path, this]
  simp

/-- C5 witness: a concrete one-row table whose only folder has a dangling
parent pointer resolves to the single-element path of its name. -/
theorem C5_dangling_parent_truncates_witness :
    folder_path [(1, ⟨"A", some 99⟩)] 1 = .ok ["A"] :=
  C5_dangling_parent_truncates.2 [(1, ⟨"A", some 99⟩)] 1 ⟨"A", some 99⟩ 99 rfl rfl rfl

/-- C10: the claim that computing the export directory name is total fails
on the code: `note_dir_name` calls `String::truncate(80)` on the byte
length, and a title of 79 ASCII characters followed by one three-byte
character puts byte 80 inside that character, so the call panics (modelled
as `none`) instead of returning a name. -/
theorem C10_note_dir_name_truncation_panics :
    note_dir_name (String.mk (List.replicate 79 'a' ++ ['€']))
      "x-coredata://UUID/ICNote/p1" = none := by decide

/-- C3: an unresolved folder id is fatal in the automation-bridge flavor —
`build_item` returns the error naming the note and folder id — while the
direct-store flavor substitutes the sentinel path `["Unknown"]` and
continues: `export_one_db` succeeds, placing the note under `Unknown` and
recording `["Unknown"]` in the metadata. -/
theorem C3_folder_lookup_failure_by_flavor :
    (∀ (get_note : String → Except String Note) (htmlToMd : String → String)
        (metaJson : BackupNoteMetadata → String) (account : String)
        (out_dir : List String) (folder_index : FolderIndex) (n : NoteSummary)
        (note : Note) (include_html : Bool),
      get_note n.id = .ok note →
      folder_index.folder_path note.folder_id = none →
      build_item get_note htmlToMd metaJson account out_dir folder_index n include_html =
        .error ("note " ++ note.id ++ " references unknown folder id " ++ note.folder_id))
    ∧ (∀ (isAlnum : Char → Bool) (gunzip : List Nat → Except String (List Nat))
        (metaJson : BackupNoteMetadata → String) (account : String)
        (out_dir : List String) (folder_index : FolderIndex) (row : DbNoteRow)
        (conn : Int → Option (List Nat)) (pk : Int) (note_dir : List String),
      folder_index.folder_path row.folder_id = none →
      parse_coredata_pk row.id = .ok pk →
      export_path out_dir ["Unknown"] row.title row.id = some note_dir →
      ∃ w, export_one_db isAlnum gunzip metaJson account out_dir folder_index row conn =
          .ok w ∧
        w.note_dir = note_dir ∧
        w.metadata_json =
          metaJson ⟨row.id, row.title, account, ["Unknown"], row.created_at,
            row.modified_at⟩) := by
  constructor
  · intro get_note htmlToMd metaJson account out_dir folder_index n note include_html h1 h2
    simp only [build_item, h1, h2]
  · intro isAlnum gunzip metaJson account out_dir folder_index row conn pk note_dir h1 h2 h3
    rw [export_one_db, h2]
    simp only [h1, Option.getD_none, h3]
    exact ⟨_, rfl, rfl, rfl⟩

/-- C3 witness: the theorem applied to a concrete note whose folder id
resolves in neither flavor: the bridge flavor yields the hard error, the
direct-store flavor exports under the sentinel path. -/
theorem C3_folder_lookup_failure_by_flavor_witness :
    (build_item (fun i => if i = "n1" then .ok ⟨"n1", "T", "missing", 0, 0, "<div>x</div>"⟩
        else .error "not found") (fun h => h) (fun _ => "{}") "acc" ["out"] ⟨[]⟩
        ⟨"n1", "T", "missing"⟩ false =
      .error "note n1 references unknown folder id missing")
    ∧ ∃ w, export_one_db asciiIsAlphanumeric (fun _ => .error "no gzip") (fun _ => "{}")
        "acc" ["out"] ⟨[]⟩
        ⟨"x-coredata://U/ICNote/p1", "T", "missing", 0, 0, none⟩
        (fun _ => some (strBytes "Hello")) = .ok w ∧
        w.note_dir = ["out", "Unknown", "T-p1"] ∧
        w.metadata_json = "{}" := by
  constructor
  · exact C3_folder_lookup_failure_by_flavor.1 _ _ _ "acc" ["out"] ⟨[]⟩
      ⟨"n1", "T", "missing"⟩ ⟨"n1", "T", "missing", 0, 0, "<div>x</div>"⟩ false
      (by decide) rfl
  · obtain ⟨w, hw, hd, hm⟩ := C3_folder_lookup_failure_by_flavor.2
      asciiIsAlphanumeric (fun _ => .error "no gzip") (fun _ => "{}") "acc" ["out"] ⟨[]⟩
      ⟨"x-coredata://U/ICNote/p1", "T", "missing", 0, 0, none⟩
      (fun _ => some (strBytes "Hello")) 1 ["out", "Unknown", "T-p1"]
      rfl (by decide) (by decide)
    exact ⟨w, hw, hd, hm⟩

/-- C2 counterexample: a concrete direct-store export whose note is titled
`T` and whose blob decodes to `Hello` writes `Hello` as `contents.md`,
which does not begin with the level-1 heading `# T` and a blank line — the
claim fails for the direct-store flavor, which never prepends a heading. -/
theorem C2_counterexample :
    (export_one_db asciiIsAlphanumeric (fun _ => .error "no gzip") (fun _ => "{}")
        "acc" ["out"]
        ⟨[("fid", ⟨"fid", "F", "acc", ["F"]⟩)]⟩
        ⟨"x-coredata://U/ICNote/p1", "T", "fid", 0, 0, none⟩
        (fun _ => some (strBytes "Hello"))).map WorkItem.contents_md = .ok "Hello"
    ∧ ("# T\n\n".data.isPrefixOf "Hello".data) = false := by decide

/-- C2 (amended): only the automation-bridge flavor writes `contents.md` as
a level-1 heading equal to the note title, a blank line, then the trimmed
converted body (`render::note_to_markdown`); the direct-store flavor writes
the decoded blob text unchanged (empty on decode failure), with no
heading. -/
theorem C2_contents_md_by_flavor :
    (∀ (htmlToMd : String → String) (note : Note),
      note_to_markdown htmlToMd note =
        "# " ++ note.title ++ "\n\n" ++ String.mk (rustTrim (htmlToMd note.body_html).data))
    ∧ (∀ (get_note : String → Except String Note) (htmlToMd : String → String)
        (metaJson : BackupNoteMetadata → String) (account : String)
        (out_dir : List String) (folder_index : FolderIndex) (n : NoteSummary)
        (note : Note) (include_html : Bool) (w : WorkItem),
      get_note n.id = .ok note →
      build_item get_note htmlToMd metaJson account out_dir folder_index n include_html =
        .ok w →
      w.contents_md = note_to_markdown htmlToMd note)
    ∧ (∀ (isAlnum : Char → Bool) (gunzip : List Nat → Except String (List Nat))
        (metaJson : BackupNoteMetadata → String) (account : String)
        (out_dir : List String) (folder_index : FolderIndex) (row : DbNoteRow)
        (conn : Int → Option (List Nat)) (pk : Int) (w : WorkItem),
      parse_coredata_pk row.id = .ok pk →
      export_one_db isAlnum gunzip metaJson account out_dir folder_index row conn = .ok w →
      w.contents_md =
        match decodeNoteMarkdown isAlnum gunzip ((conn pk).getD []) with
        | .ok s => s
        | .error _ => "") := by
  refine ⟨fun _ _ => rfl, ?_, ?_⟩
  · intro get_note htmlToMd metaJson account out_dir folder_index n note include_html w h1 h2
    rw [build_item, h1] at h2
    simp only at h2
    match hfp : folder_index.folder_path note.folder_id with
    | none => rw [hfp] at h2; exact absurd h2 (by simp)
    | some fp =>
      rw [hfp] at h2
      simp only at h2
      match hep : export_path out_dir fp note.title note.id with
      | none => rw [hep] at h2; exact absurd h2 (by simp)
      | some d =>
        rw [hep] at h2
        cases h2
        rfl
  · intro isAlnum gunzip metaJson account out_dir folder_index row conn pk w h1 h2
    rw [export_one_db, h1] at h2
    simp only at h2
    match hep : export_path out_dir ((folder_index.folder_path row.folder_id).getD
        ["Unknown"]) row.title row.id with
    | none => rw [hep] at h2; exact absurd h2 (by simp)
    | some d =>
      rw [hep] at h2
      cases h2
      rfl

/-- C2 (amended) witness: the bridge flavor at a concrete note produces the
heading-prefixed markdown, and the direct-store flavor at a concrete note
reproduces the decoded blob text. -/
theorem C2_contents_md_by_flavor_witness :
    note_to_markdown (fun h => h) ⟨"n1", "T", "fid", 0, 0, "body"⟩ = "# T\n\nbody"
    ∧ (⟨["out", "F", "T-p1"], "{}", "Hello", none⟩ : WorkItem).contents_md =
        match decodeNoteMarkdown asciiIsAlphanumeric (fun _ => .error "no gzip")
            (((fun (_ : Int) => some (strBytes "Hello")) 1).getD []) with
        | .ok s => s
        | .error _ => "" := by
  constructor
  · rw [C2_contents_md_by_flavor.1 (fun h => h) ⟨"n1", "T", "fid", 0, 0, "body"⟩]
    decide
  · exact C2_contents_md_by_flavor.2.2 asciiIsAlphanumeric (fun _ => .error "no gzip")
      (fun _ => "{}")
      "acc" ["out"] ⟨[("fid", ⟨"fid", "F", "acc", ["F"]⟩)]⟩
      ⟨"x-coredata://U/ICNote/p1", "T", "fid", 0, 0, none⟩
      (fun _ => some (strBytes "Hello")) 1 ⟨["out", "F", "T-p1"], "{}", "Hello", none⟩
      (by decide) (by decide)

/-- C6 counterexample: the plain UTF-8 text `Hi\r\n` has CRLF line endings,
yet `decode_note_markdown` returns `Hi` — the trailing line break is
trimmed away — while the claim demands the normalized text `Hi\n`
exactly. -/
theorem C6_counterexample :
    decodeNoteMarkdown asciiIsAlphanumeric (fun _ => .error "no gzip")
        (strBytes "Hi\r\n") = .ok "Hi"
    ∧ normalizeText "Hi\r\n" = "Hi\n"
    ∧ ("Hi" : String) ≠ "Hi\n" := by decide

/-- C6 (amended): for gzip-compressed and for plain UTF-8 input alike,
`decode_note_markdown` returns the decoded text with NUL padding and
surrounding whitespace stripped and line endings normalized — equal to the
normalized original exactly when the text has no leading or trailing
whitespace or NULs — provided the stripped text passes the human-text
heuristic. -/
theorem C6_decode_returns_trimmed_normalized_text :
    (∀ (isAlnum : Char → Bool) (gunzip : List Nat → Except String (List Nat))
        (data bytes : List Nat) (t : List Char),
      data.take 2 = [0x1f, 0x8b] → gunzip data = .ok bytes →
      utf8Decode bytes = some t →
      looksLikeHumanText (rustTrim (trimNuls t)) = true →
      decodeNoteMarkdown isAlnum gunzip data =
        .ok (String.mk (normalizeChars (rustTrim (trimNuls t)))))
    ∧ (∀ (isAlnum : Char → Bool) (gunzip : List Nat → Except String (List Nat))
        (data : List Nat) (t : List Char),
      data.take 2 ≠ [0x1f, 0x8b] → utf8Decode data = some t →
      looksLikeHumanText (rustTrim (trimNuls t)) = true →
      decodeNoteMarkdown isAlnum gunzip data =
        .ok (String.mk (normalizeChars (rustTrim (trimNuls t))))) := by
  constructor
  · intro isAlnum gunzip data bytes t h1 h2 h3 h4
    simp only [decodeNoteMarkdown, h1, if_pos, h2, h3, h4, if_true]
  · intro isAlnum gunzip data t h1 h2 h3
    simp only [decodeNoteMarkdown, if_neg h1, h2, h3, if_true]

/-- C6 (amended) witness: the theorem evaluated on a concrete stub gzip
stream whose payload is `A b\r\nc\n` (decoding to the stripped, normalized
`A b\nc`) and on the concrete plain input `Hi\r\nThere` (decoding to
`Hi\nThere`, the repository's own test case). -/
theorem C6_decode_returns_trimmed_normalized_text_witness :
    decodeNoteMarkdown asciiIsAlphanumeric
        (fun d => if d = [0x1f, 0x8b] then Except.ok (strBytes "A b\r\nc\n")
          else Except.error "bad stream") [0x1f, 0x8b] = .ok "A b\nc"
    ∧ decodeNoteMarkdown asciiIsAlphanumeric (fun _ => .error "no gzip")
        (strBytes "Hi\r\nThere") = .ok "Hi\nThere" := by
  constructor
  · exact (C6_decode_returns_trimmed_normalized_text.1 asciiIsAlphanumeric
      (fun d => if d = [0x1f, 0x8b] then Except.ok (strBytes "A b\r\nc\n")
        else Except.error "bad stream")
      [0x1f, 0x8b] (strBytes "A b\r\nc\n") "A b\r\nc\n".data
      (by decide) (by decide) (by decide) (by decide)).trans (by decide)
  · exact (C6_decode_returns_trimmed_normalized_text.2 asciiIsAlphanumeric
      (fun _ => .error "no gzip") (strBytes "Hi\r\nThere") "Hi\r\nThere".data
      (by decide) (by decide) (by decide)).trans (by decide)

theorem utf8Width_pos (c : Char) : 1 ≤ utf8Width c := by
  rw [utf8Width]
  split <;> [skip; split <;> [skip; split]] <;> omega

theorem length_le_utf8Len (l : List Char) : l.length ≤ utf8Len l := by
  induction l with
  | nil => simp [utf8Len]
  | cons c cs ih =>
    have := utf8Width_pos c
    simp only [utf8Len, List.map_cons, List.sum_cons, List.length_cons]
    simp only [utf8Len] at ih
    omega

theorem takeBytes_length_le (n : Nat) (l : List Char) :
    (takeBytes n l).length ≤ l.length := by
  induction l generalizing n with
  | nil => simp [takeBytes]
  | cons c cs ih =>
    rw [takeBytes]
    split
    · simpa using Nat.succ_le_succ (ih _)
    · simp

theorem sanitizeChars_length_le (l : List Char) :
    (sanitizeChars l).length ≤ l.length := by
  simp only [sanitizeChars]
  have hX : ∀ X : List Char, X.length ≤ l.length →
      (if utf8Len X > 255 then takeBytes 255 X else X).length ≤ l.length := by
    intro X hXl
    split
    · exact le_trans (takeBytes_length_le _ _) hXl
    · exact hXl
  apply hX
  split
  · simp
  · exact List.length_filter_le _ _

theorem truncateBytes_utf8Len_le {n : Nat} {l b : List Char}
    (h : truncateBytes n l = some b) : utf8Len b ≤ n := by
  induction l generalizing n b with
  | nil =>
    rw [truncateBytes] at h
    cases h
    simp [utf8Len]
  | cons c cs ih =>
    rw [truncateBytes] at h
    split at h
    · obtain ⟨b2, hb2, rfl⟩ := Option.map_eq_some'.mp h
      have h2 := ih hb2
      have h3 : utf8Width c ≤ n := by assumption
      simp only [utf8Len, List.map_cons, List.sum_cons]
      simp only [utf8Len] at h2
      omega
    · split at h
      · cases h
        simp [utf8Len]
      · exact absurd h (by simp)

/-- The trimmed title with `Untitled` substituted when the trim is empty:
the base string `note_dir_name` truncates, sanitizes and suffixes. -/
def defaultedTitle (title : String) : List Char :=
  let base := rustTrim title.data
  if base.isEmpty then "Untitled".data else base

theorem note_dir_name_eq (title note_id : String) :
    note_dir_name title note_id =
      (if utf8Len (defaultedTitle title) > 80
       then truncateBytes 80 (defaultedTitle title)
       else some (defaultedTitle title)).map
        (fun b => String.mk (sanitizeChars b) ++ "-" ++
          String.mk (lastSegChars note_id.data)) := rfl

/-- C9: whenever `note_dir_name` returns, the directory name is the
sanitized base title — the trimmed title, `Untitled` when empty, truncated
to 80 bytes when longer — followed by a dash and the trailing segment of the
opaque note id, and the part before the dash never exceeds 80 characters;
in particular the title `Hello/World` with an id ending in `p123` yields
exactly `HelloWorld-p123`. -/
theorem C9_note_dir_name_shape :
    (∀ (title note_id out : String), note_dir_name title note_id = some out →
      ∃ base : List Char,
        (if utf8Len (defaultedTitle title) > 80
         then truncateBytes 80 (defaultedTitle title) = some base
         else base = defaultedTitle title) ∧
        out = String.mk (sanitizeChars base) ++ "-" ++
          String.mk (lastSegChars note_id.data) ∧
        (sanitizeChars base).length ≤ 80)
    ∧ note_dir_name "Hello/World" "x-coredata://UUID/ICNote/p123" =
        some "HelloWorld-p123" := by
  refine ⟨?_, by decide⟩
  intro title note_id out h
  rw [note_dir_name_eq] at h
  by_cases hlen : utf8Len (defaultedTitle title) > 80
  · rw [if_pos hlen] at h
    obtain ⟨base, hbase, rfl⟩ := Option.map_eq_some'.mp h
    refine ⟨base, by rw [if_pos hlen]; exact hbase, rfl, ?_⟩
    calc (sanitizeChars base).length ≤ base.length := sanitizeChars_length_le base
      _ ≤ utf8Len base := length_le_utf8Len base
      _ ≤ 80 := truncateBytes_utf8Len_le hbase
  · rw [if_neg hlen] at h
    simp only [Option.map_some'] at h
    refine ⟨defaultedTitle title, by rw [if_neg hlen], (Option.some_inj.mp h).symm, ?_⟩
    calc (sanitizeChars (defaultedTitle title)).length
        ≤ (defaultedTitle title).length := sanitizeChars_length_le _
      _ ≤ utf8Len (defaultedTitle title) := length_le_utf8Len _
      _ ≤ 80 := by omega

/-- C9 witness: the theorem applied to the concrete title `Hello/World` and
id `x-coredata://UUID/ICNote/p123`. -/
theorem C9_note_dir_name_shape_witness :
    ∃ base : List Char,
      (if utf8Len (defaultedTitle "Hello/World") > 80
       then truncateBytes 80 (defaultedTitle "Hello/World") = some base
       else base = defaultedTitle "Hello/World") ∧
      "HelloWorld-p123" = String.mk (sanitizeChars base) ++ "-" ++
        String.mk (lastSegChars "x-coredata://UUID/ICNote/p123".data) ∧
      (sanitizeChars base).length ≤ 80 :=
  C9_note_dir_name_shape.1 "Hello/World" "x-coredata://UUID/ICNote/p123"
    "HelloWorld-p123" (by decide)

instance (isAlnum : Char → Bool) : IsTotal String (scoreGe isAlnum) :=
  ⟨fun a b => Nat.le_total (scoreBlock isAlnum b) (scoreBlock isAlnum a)⟩

instance (isAlnum : Char → Bool) : IsTrans String (scoreGe isAlnum) :=
  ⟨fun _ _ _ hab hbc => le_trans hbc hab⟩

/-- C7: every run is scored exactly as
`max(0, alnum_count - run_length / 4) + min(whitespace_count, 200)`, where
`alnum_count` counts the characters the collaborator classifier
`char::is_alphanumeric` accepts (abstracted as `isAlnum`); when some run
scores strictly above 20 the fallback extraction returns a highest-scoring
run, normalized; and when no run scores strictly above 20 the extraction
yields the empty string and `decode_note_markdown` (on the fallback path)
fails with `could not extract text from note blob`.  All three parts hold
for every classifier; the program instantiates `isAlnum` with the std
Unicode table. -/
theorem C7_scoring_and_selection :
    (∀ (isAlnum : Char → Bool) (s : String), (scoreBlock isAlnum s : Int) =
      max 0 (((s.data.filter isAlnum).length : Int) -
          ((s.data.length / 4 : Nat) : Int)) +
        min ((s.data.filter rustIsWhitespace).length : Int) 200)
    ∧ (∀ (isAlnum : Char → Bool) (bytes : List Nat),
      (∃ b ∈ extractBlocks bytes, 20 < scoreBlock isAlnum b) →
      ∃ best ∈ extractBlocks bytes,
        (∀ b ∈ extractBlocks bytes, scoreBlock isAlnum b ≤ scoreBlock isAlnum best) ∧
        20 < scoreBlock isAlnum best ∧
        bestEffortExtractText isAlnum bytes = normalizeText best)
    ∧ (∀ (isAlnum : Char → Bool) (gunzip : List Nat → Except String (List Nat))
        (data : List Nat),
      data.take 2 ≠ [0x1f, 0x8b] →
      (∀ t, utf8Decode data = some t →
        looksLikeHumanText (rustTrim (trimNuls t)) = false) →
      (∀ b ∈ extractBlocks data, scoreBlock isAlnum b ≤ 20) →
      bestEffortExtractText isAlnum data = "" ∧
      decodeNoteMarkdown isAlnum gunzip data =
        .error "could not extract text from note blob") := by
  refine ⟨?_, ?_, ?_⟩
  · intro isAlnum s
    simp only [scoreBlock]
    generalize (s.data.filter isAlnum).length = a
    generalize (s.data.filter rustIsWhitespace).length = w
    generalize s.data.length = n
    omega
  · intro isAlnum bytes hex
    obtain ⟨b0, hb0mem, hb0⟩ := hex
    have hperm : (List.insertionSort (scoreGe isAlnum) (extractBlocks bytes)).Perm
        (extractBlocks bytes) :=
      List.perm_insertionSort (scoreGe isAlnum) (extractBlocks bytes)
    have hsort : List.Sorted (scoreGe isAlnum)
        (List.insertionSort (scoreGe isAlnum) (extractBlocks bytes)) :=
      List.sorted_insertionSort (scoreGe isAlnum) (extractBlocks bytes)
    cases hs : List.insertionSort (scoreGe isAlnum) (extractBlocks bytes) with
    | nil =>
      rw [hs] at hperm
      rw [hperm.symm.eq_nil] at hb0mem
      simp at hb0mem
    | cons hd tl =>
      rw [hs] at hperm hsort
      have hhdmem : hd ∈ extractBlocks bytes := hperm.mem_iff.mp (by simp)
      have hmax : ∀ b ∈ extractBlocks bytes,
          scoreBlock isAlnum b ≤ scoreBlock isAlnum hd := by
        intro b hb
        have hbs : b ∈ hd :: tl := hperm.mem_iff.mpr hb
        rcases List.mem_cons.mp hbs with rfl | hbtl
        · exact le_refl _
        · exact List.rel_of_sorted_cons hsort b hbtl
      have h20 : 20 < scoreBlock isAlnum hd := lt_of_lt_of_le hb0 (hmax b0 hb0mem)
      refine ⟨hd, hhdmem, hmax, h20, ?_⟩
      simp only [bestEffortExtractText, hs]
      have hfind : List.find? (fun b => decide (20 < scoreBlock isAlnum b)) (hd :: tl) =
          some hd := List.find?_cons_of_pos _ (by simpa using h20)
      rw [hfind]
      rfl
  · intro isAlnum gunzip data h1 h2 h3
    have hfind : (List.insertionSort (scoreGe isAlnum) (extractBlocks data)).find?
        (fun b => decide (20 < scoreBlock isAlnum b)) = none := by
      rw [List.find?_eq_none]
      intro x hx
      have hxb : x ∈ extractBlocks data :=
        (List.perm_insertionSort (scoreGe isAlnum) (extractBlocks data)).mem_iff.mp hx
      simpa using Nat.not_lt.mpr (h3 x hxb)
    have hbest : bestEffortExtractText isAlnum data = "" := by
      simp only [bestEffortExtractText, hfind, Option.getD_none]
      rfl
    refine ⟨hbest, ?_⟩
    simp only [decodeNoteMarkdown, if_neg h1]
    cases hud : utf8Decode data with
    | some t =>
      have hlh := h2 t hud
      simp [hud, hlh, hbest]
      rfl
    | none =>
      simp [hud, hbest]
      rfl

/-- C7 witness: the theorem instantiated at the ASCII sample classifier,
which agrees with `char::is_alphanumeric` on these ASCII inputs: on a
two-run blob the fox-sentence run (score 33) beats the `zz` run (score 2)
and is selected; on a control-bytes-only blob no run exists, the extraction
is empty, and decoding fails with the exact error. -/
theorem C7_scoring_and_selection_witness :
    (∃ best ∈ extractBlocks (strBytes "The quick brown fox jumps over the lazy dog"
        ++ [0] ++ strBytes "zz"),
      (∀ b ∈ extractBlocks (strBytes "The quick brown fox jumps over the lazy dog"
          ++ [0] ++ strBytes "zz"),
        scoreBlock asciiIsAlphanumeric b ≤ scoreBlock asciiIsAlphanumeric best) ∧
      20 < scoreBlock asciiIsAlphanumeric best ∧
      bestEffortExtractText asciiIsAlphanumeric
        (strBytes "The quick brown fox jumps over the lazy dog"
          ++ [0] ++ strBytes "zz") = normalizeText best)
    ∧ bestEffortExtractText asciiIsAlphanumeric [1, 2, 3] = ""
    ∧ decodeNoteMarkdown asciiIsAlphanumeric (fun _ => .error "no gzip") [1, 2, 3] =
        .error "could not extract text from note blob" := by
  refine ⟨?_, ?_⟩
  · exact C7_scoring_and_selection.2.1 asciiIsAlphanumeric
      (strBytes "The quick brown fox jumps over the lazy dog" ++ [0] ++ strBytes "zz")
      ⟨"The quick brown fox jumps over the lazy dog", by decide, by decide⟩
  · exact C7_scoring_and_selection.2.2 asciiIsAlphanumeric (fun _ => .error "no gzip")
      [1, 2, 3]
      (by decide)
      (fun t ht => by
        have h0 : utf8Decode [1, 2, 3] = some ['\u0001', '\u0002', '\u0003'] := by decide
        rw [h0] at ht
        cases ht
        decide)
      (by decide)


theorem workerLoop_nil (writeRes : WorkItem → Except String Unit) (stop : Bool) :
    workerLoop writeRes [] stop = ([], stop, []) := rfl

theorem workerLoop_stop_true (writeRes : WorkItem → Except String Unit)
    (items : List WorkItem) : workerLoop writeRes items true = ([], true, items) := by
  cases items <;> rfl

theorem workerLoop_cons_false (writeRes : WorkItem → Except String Unit)
    (item : WorkItem) (rest : List WorkItem) :
    workerLoop writeRes (item :: rest) false =
      (writeRes item :: (workerLoop writeRes rest (!(writeRes item).isOk)).1,
       (workerLoop writeRes rest (!(writeRes item).isOk)).2.1,
       (workerLoop writeRes rest (!(writeRes item).isOk)).2.2) := rfl

theorem workerLoop_error_sets_flag (writeRes : WorkItem → Except String Unit) :
    ∀ (items : List WorkItem) (stop : Bool),
      (∃ r ∈ (workerLoop writeRes items stop).1, r.isOk = false) →
      (workerLoop writeRes items stop).2.1 = true := by
  intro items
  induction items with
  | nil =>
    intro stop h
    obtain ⟨r, hr, _⟩ := h
    rw [workerLoop_nil] at hr
    simp at hr
  | cons item rest ih =>
    intro stop h
    cases stop with
    | true =>
      obtain ⟨r, hr, _⟩ := h
      rw [workerLoop_stop_true] at hr
      simp at hr
    | false =>
      rw [workerLoop_cons_false] at h ⊢
      obtain ⟨r, hr, hrerr⟩ := h
      rcases List.mem_cons.mp hr with rfl | hrtl
      · rw [hrerr]
        simp only [Bool.not_false, workerLoop_stop_true]
      · exact ih _ ⟨r, hrtl, hrerr⟩

theorem workerLoop_reports_or_abandons (writeRes : WorkItem → Except String Unit) :
    ∀ (items : List WorkItem) (stop : Bool),
      (workerLoop writeRes items stop).1.length +
        (workerLoop writeRes items stop).2.2.length = items.length := by
  intro items
  induction items with
  | nil => intro stop; rw [workerLoop_nil]; simp
  | cons item rest ih =>
    intro stop
    cases stop with
    | true => rw [workerLoop_stop_true]; simp
    | false =>
      rw [workerLoop_cons_false]
      have := ih (!(writeRes item).isOk)
      simp only [List.length_cons]
      omega

theorem producerDrain_first_error (sent : Nat) (e : String)
    (post : List (Except String Unit)) :
    ∀ (pre : List (Except String Unit)) (completed : Nat),
      (∀ r ∈ pre, r = .ok ()) → completed + pre.length < sent →
      producerDrain sent completed (pre ++ .error e :: post) = .error e := by
  intro pre
  induction pre with
  | nil =>
    intro completed hpre hlt
    simp only [List.nil_append]
    rw [producerDrain, if_neg (by simp at hlt; omega)]
  | cons r rest ih =>
    intro completed hpre hlt
    have hr : r = .ok () := hpre r (by simp)
    subst hr
    simp only [List.cons_append]
    rw [producerDrain, if_neg (by simp at hlt; omega)]
    exact ih (completed + 1) (fun x hx => hpre x (by simp [hx]))
      (by simp at hlt ⊢; omega)

theorem producerDrain_all_ok (sent : Nat) :
    ∀ (arrivals : List (Except String Unit)) (completed : Nat),
      (∀ r ∈ arrivals, r = .ok ()) → completed ≤ sent →
      sent ≤ completed + arrivals.length →
      producerDrain sent completed arrivals = .ok sent := by
  intro arrivals
  induction arrivals with
  | nil =>
    intro completed hall hle hlen
    simp only [List.length_nil, Nat.add_zero] at hlen
    rw [producerDrain, if_pos hlen, le_antisymm hle hlen]
  | cons r rest ih =>
    intro completed hall hle hlen
    have hr : r = .ok () := hall r (by simp)
    subst hr
    rw [producerDrain]
    by_cases hc : sent ≤ completed
    · rw [if_pos hc, le_antisymm hle hc]
    · rw [if_neg hc]
      exact ih (completed + 1) (fun x hx => hall x (by simp [hx]))
        (by omega) (by simp at hlen ⊢; omega)

/-- C8 counterexample: with two tasks sent, the producer drain loop returns
the first error report as soon as it arrives — after consuming a single
completion — rather than waiting for the second already-sent task to report
completion; a later report, if any, is ignored. -/
theorem C8_counterexample :
    producerDrain 2 0 [Except.error "disk full"] = .error "disk full"
    ∧ producerDrain 2 0 [Except.error "disk full", Except.ok ()] =
        .error "disk full" := by decide

/-- C8 (amended): a worker write error sets the shared cancellation flag; a
worker that observes the flag abandons every remaining received task
unreported (tasks are never force-completed, and each received task is
either reported or abandoned); the producer drain loop propagates the first
error report it receives immediately, without waiting for the remaining
already-sent completions, and waits for all `sent` completions only when no
error report arrives. -/
theorem C8_cancellation_and_drain :
    (∀ (writeRes : WorkItem → Except String Unit) (items : List WorkItem)
        (stop : Bool),
      (∃ r ∈ (workerLoop writeRes items stop).1, r.isOk = false) →
      (workerLoop writeRes items stop).2.1 = true)
    ∧ (∀ (writeRes : WorkItem → Except String Unit) (items : List WorkItem),
      workerLoop writeRes items true = ([], true, items))
    ∧ (∀ (writeRes : WorkItem → Except String Unit) (items : List WorkItem)
        (stop : Bool),
      (workerLoop writeRes items stop).1.length +
        (workerLoop writeRes items stop).2.2.length = items.length)
    ∧ (∀ (sent completed : Nat) (pre post : List (Except String Unit)) (e : String),
      (∀ r ∈ pre, r = .ok ()) → completed + pre.length < sent →
      producerDrain sent completed (pre ++ .error e :: post) = .error e)
    ∧ (∀ (sent completed : Nat) (arrivals : List (Except String Unit)),
      (∀ r ∈ arrivals, r = .ok ()) → completed ≤ sent →
      sent ≤ completed + arrivals.length →
      producerDrain sent completed arrivals = .ok sent) :=
  ⟨workerLoop_error_sets_flag, workerLoop_stop_true,
   workerLoop_reports_or_abandons,
   fun sent completed pre post e h1 h2 =>
     producerDrain_first_error sent e post pre completed h1 h2,
   fun sent completed arrivals h1 h2 h3 =>
     producerDrain_all_ok sent arrivals completed h1 h2 h3⟩

/-- C8 (amended) witness: a concrete worker run whose second write fails
leaves the flag set and abandons the third received task unreported; a
concrete drain over one ok report and then an error returns that error
without a third report; a concrete error-free drain completes all sent
tasks. -/
theorem C8_cancellation_and_drain_witness :
    (workerLoop (fun w => if w.contents_md = "bad" then .error "disk full" else .ok ())
      [⟨["a"], "m", "good", none⟩, ⟨["b"], "m", "bad", none⟩,
       ⟨["c"], "m", "good", none⟩] false).2.1 = true
    ∧ producerDrain 3 0 [Except.ok (), Except.error "disk full"] = .error "disk full"
    ∧ producerDrain 2 0 [Except.ok (), Except.ok ()] = .ok 2 := by
  refine ⟨?_, ?_, ?_⟩
  · exact C8_cancellation_and_drain.1
      (fun w => if w.contents_md = "bad" then .error "disk full" else .ok ())
      [⟨["a"], "m", "good", none⟩, ⟨["b"], "m", "bad", none⟩,
       ⟨["c"], "m", "good", none⟩] false
      ⟨.error "disk full", by decide, by decide⟩
  · exact C8_cancellation_and_drain.2.2.2.1 3 0 [Except.ok ()] [] "disk full"
      (by decide) (by decide)
  · exact C8_cancellation_and_drain.2.2.2.2 2 0 [Except.ok (), Except.ok ()]
      (by decide) (by decide) (by decide)

theorem exportParBuild_eq_exportSeqBuild (get_note : String → Except String Note)
    (htmlToMd : String → String) (metaJson : BackupNoteMetadata → String)
    (account : String) (out_dir : List String) (folder_index : FolderIndex)
    (include_html : Bool) :
    ∀ notes : List NoteSummary,
      exportParBuild get_note htmlToMd metaJson account out_dir folder_index
          include_html notes =
        exportSeqBuild get_note htmlToMd metaJson account out_dir folder_index
          include_html notes := by
  intro notes
  induction notes with
  | nil => rfl
  | cons n rest ih => rw [exportParBuild, exportSeqBuild, ih]

/-- C1: over the same fixed input, the `jobs > 1` branch of `export_all`
builds exactly the work items the `jobs = 1` branch builds (the producer
fetches and builds serially in listing order in both branches), and
whatever order the worker pool writes those items in — any permutation of
the sequential order — the resulting collection of (path, contents) pairs
is the same: equal as a multiset and as a set, so only write order can
differ. -/
theorem C1_jobs_equivalent :
    (∀ (get_note : String → Except String Note) (htmlToMd : String → String)
        (metaJson : BackupNoteMetadata → String) (account : String)
        (out_dir : List String) (folder_index : FolderIndex) (include_html : Bool)
        (notes : List NoteSummary),
      exportParBuild get_note htmlToMd metaJson account out_dir folder_index
          include_html notes =
        exportSeqBuild get_note htmlToMd metaJson account out_dir folder_index
          include_html notes)
    ∧ (∀ (get_note : String → Except String Note) (htmlToMd : String → String)
        (metaJson : BackupNoteMetadata → String) (account : String)
        (out_dir : List String) (folder_index : FolderIndex) (include_html : Bool)
        (notes : List NoteSummary) (items write_order : List WorkItem),
      exportSeqBuild get_note htmlToMd metaJson account out_dir folder_index
          include_html notes = .ok items →
      write_order.Perm items →
      (run_files write_order).Perm (run_files items) ∧
      (run_files write_order).toFinset = (run_files items).toFinset) := by
  refine ⟨exportParBuild_eq_exportSeqBuild, ?_⟩
  intro get_note htmlToMd metaJson account out_dir folder_index include_html
    notes items write_order hseq hperm
  have hfiles : (run_files write_order).Perm (run_files items) := by
    have hmap : (write_order.map write_item_files).Perm (items.map write_item_files) :=
      hperm.map write_item_files
    simpa [run_files, List.flatMap_def] using hmap.flatten
  exact ⟨hfiles, List.toFinset_eq_of_perm _ _ hfiles⟩

/-- C1 witness: a concrete two-note export over one folder; the parallel
run writing the two built items in reversed order produces the same file
multiset and file set as the sequential run. -/
theorem C1_jobs_equivalent_witness :
    (run_files
      [⟨["out", "F", "B-p2"], "x-coredata://U/ICNote/p2", "# B\n\nbodyB", some "bodyB"⟩,
       ⟨["out", "F", "A-p1"], "x-coredata://U/ICNote/p1", "# A\n\nbodyA", some "bodyA"⟩]).Perm
      (run_files
        [⟨["out", "F", "A-p1"], "x-coredata://U/ICNote/p1", "# A\n\nbodyA", some "bodyA"⟩,
         ⟨["out", "F", "B-p2"], "x-coredata://U/ICNote/p2", "# B\n\nbodyB", some "bodyB"⟩])
    ∧ (run_files
        [⟨["out", "F", "B-p2"], "x-coredata://U/ICNote/p2", "# B\n\nbodyB", some "bodyB"⟩,
         ⟨["out", "F", "A-p1"], "x-coredata://U/ICNote/p1", "# A\n\nbodyA", some "bodyA"⟩]).toFinset =
      (run_files
        [⟨["out", "F", "A-p1"], "x-coredata://U/ICNote/p1", "# A\n\nbodyA", some "bodyA"⟩,
         ⟨["out", "F", "B-p2"], "x-coredata://U/ICNote/p2", "# B\n\nbodyB", some "bodyB"⟩]).toFinset :=
  C1_jobs_equivalent.2
    (fun i => if i = "n1" then .ok ⟨"x-coredata://U/ICNote/p1", "A", "fid", 0, 0, "bodyA"⟩
      else if i = "n2" then .ok ⟨"x-coredata://U/ICNote/p2", "B", "fid", 0, 0, "bodyB"⟩
      else .error "not found")
    (fun h => h) (fun m => m.id) "acc" ["out"]
    ⟨[("fid", ⟨"fid", "F", "acc", ["F"]⟩)]⟩ true
    [⟨"n1", "A", "fid"⟩, ⟨"n2", "B", "fid"⟩]
    [⟨["out", "F", "A-p1"], "x-coredata://U/ICNote/p1", "# A\n\nbodyA", some "bodyA"⟩,
     ⟨["out", "F", "B-p2"], "x-coredata://U/ICNote/p2", "# B\n\nbodyB", some "bodyB"⟩]
    [⟨["out", "F", "B-p2"], "x-coredata://U/ICNote/p2", "# B\n\nbodyB", some "bodyB"⟩,
     ⟨["out", "F", "A-p1"], "x-coredata://U/ICNote/p1", "# A\n\nbodyA", some "bodyA"⟩]
    (by decide) (by decide)
